import Mathlib

/-!
Verification of the MultiSurface parsing core of the `egml` repository
(`crates/egml-io/src/geometry/multi_surface.rs`).

The file shallowly embeds the mapped structure (`GmlMultiSurface`,
`GmlSurfaceMember`), the identity-resolution and member-conversion logic of
`TryFrom<GmlMultiSurface> for MultiSurface`, and the entry point
`parse_multi_surface`.  External collaborators of this core (the markup
deserializer of the `quick_xml` crate and the standard-library
`DefaultHasher`) are modelled abstractly: the deserializer is a function
parameter, and the hasher is modelled by the exact token stream that the
derived `Hash` implementation feeds to it (field by field, in declaration
order, with string terminators, sequence length prefixes and option
discriminants mirroring the Rust `Hash` protocol) followed by a concrete
64-bit mixing function standing in for the unspecified `DefaultHasher`
algorithm.  Domain types of `egml-core` (`Id`, `Gml`, `Polygon`,
`MultiSurface`) and `GmlPolygon` live in repository files outside the given
source; they are modelled from the specification, as marked on each one.
-/

namespace Egml

/-- Modelled from the spec: a 3-D point of a ring ("each point has 3
ordinates"); the numeric interpretation of coordinates is out of the
core's scope, so ordinates are modelled as integers. -/
structure DirectPosition where
  x : Int
  y : Int
  z : Int
  deriving DecidableEq, Repr

/-- Modelled from the spec: the mapped shape of an inline polygon
(`GmlPolygon`, defined in the sibling `polygon.rs` outside the given
source): one exterior ring plus an ordered sequence of interior rings,
each ring an ordered sequence of 3-D points. -/
structure GmlPolygon where
  exterior : List DirectPosition
  interior : List (List DirectPosition)
  deriving DecidableEq, Repr

/-- `GmlSurfaceMember` of the Schema Mapper: a reference attribute
(defaulting to the empty string) and an optional inline polygon payload. -/
structure GmlSurfaceMember where
  href : String
  polygon : Option GmlPolygon
  deriving DecidableEq, Repr

/-- `GmlMultiSurface` of the Schema Mapper: an identifier attribute
(defaulting to the empty string) and the ordered sequence of surface
members. -/
structure GmlMultiSurface where
  id : String
  members : List GmlSurfaceMember
  deriving DecidableEq, Repr

/-- Modelled from the spec: the opaque domain `Id` of `egml-core` with its
two construction paths — parsed from an explicit identifier string, or
derived from a hash value. -/
inductive Id where
  | parsed (s : String)
  | hashed (h : Nat)
  deriving DecidableEq, Repr

/-- Modelled from the spec: the fallible Id parser
(`String -> Option Id`); its exact validity rules belong to the `Id` type
and are not specified, beyond the guarantee that an absent attribute (the
empty string) does not parse.  All theorems below hypothesise only on the
outcome of this parse, not on the validity rule itself. -/
def Id.tryParse (s : String) : Option Id :=
  if s.isEmpty then none else some (.parsed s)

/-- Modelled from the spec: the total fallback constructor
`from_hashed_u64 : HashValue -> Id` of `egml-core`; its argument is a
64-bit hash output. -/
def Id.from_hashed_u64 (h : Nat) : Id :=
  .hashed (h % 2 ^ 64)

/-- Modelled from the spec: the `Gml` base carried by every domain
geometry, holding its resolved `Id` (`Gml::new(id)`). -/
structure Gml where
  id : Id
  deriving DecidableEq, Repr

/-- Modelled from the spec: the domain layer's rejection reasons
(insufficient points, unclosed ring, empty feature). -/
inductive DomainError where
  | insufficientPoints
  | ringNotClosed
  | emptyMultiSurface
  deriving DecidableEq, Repr

/-- Modelled from the spec: the domain `Polygon` of `egml-core`,
constructed only through its validating constructor. -/
structure Polygon where
  exterior : List DirectPosition
  interior : List (List DirectPosition)
  deriving DecidableEq, Repr

/-- Modelled from the spec: validity of a ring as enforced by the domain
model — a minimum point count, and closure (first point equal to the
last). -/
def ringCheck (r : List DirectPosition) : Except DomainError Unit :=
  if r.length < 4 then .error .insufficientPoints
  else if r.head? ≠ r.getLast? then .error .ringNotClosed
  else .ok ()

/-- Modelled from the spec: the fallible domain polygon constructor
(`RawPolygonData -> Result<Polygon, DomainError>`), enforcing the domain
invariants on the exterior ring and every interior ring. -/
def Polygon.tryFrom (p : GmlPolygon) : Except DomainError Polygon :=
  match ringCheck p.exterior with
  | .error e => .error e
  | .ok _ =>
    match p.interior.mapM ringCheck with
    | .error e => .error e
    | .ok _ => .ok ⟨p.exterior, p.interior⟩

/-- Modelled from the spec: the domain `MultiSurface` — an identifier plus
an ordered sequence of polygons. -/
structure MultiSurface where
  gml : Gml
  surface_member : List Polygon
  deriving DecidableEq, Repr

/-- Modelled from the spec: the fallible domain multi-surface constructor
(`(Id, Sequence<Polygon>) -> Result<MultiSurface, DomainError>`); whether
an empty polygon sequence is accepted is a domain-level decision, modelled
here as a rejection ("e.g., zero polygons, if that is a domain-level
invariant"). -/
def MultiSurface.new (gml : Gml) (polygons : List Polygon) :
    Except DomainError MultiSurface :=
  if polygons.isEmpty then .error .emptyMultiSurface
  else .ok ⟨gml, polygons⟩

/-- The error type of the io layer (`crate::error::Error`), modelled from
the spec's error taxonomy: a `Deserialization` failure carrying the
underlying parser diagnostic, or a `PolygonConversion` / domain-rejection
failure carrying the domain layer's reason. -/
inductive Error where
  | Deserialization (cause : String)
  | PolygonConversion (reason : DomainError)
  deriving DecidableEq, Repr

/-! ### The hasher model

The fallback identity hashes the whole `GmlMultiSurface` value with the
derived `Hash` implementation.  We model the data written to the hasher as
a stream of tokens: `derive(Hash)` hashes the fields in declaration order;
a string contributes its characters followed by a terminator; a sequence
contributes its length followed by its elements; an option contributes its
discriminant followed by its payload. -/

/-- One datum written to the hasher. -/
inductive Tok where
  | term
  | char (c : Char)
  | nat (n : Nat)
  | int (i : Int)
  | tag (t : Nat)
  deriving DecidableEq, Repr

/-- A string feeds its characters to the hasher followed by a terminator
(mirroring Rust's `Hash for str`, which writes the bytes then `0xff`). -/
def encStr (s : String) : List Tok :=
  s.data.map Tok.char ++ [Tok.term]

/-- A sequence feeds its length to the hasher followed by its elements in
order (mirroring `Hash for Vec`). -/
def encList (enc : α → List Tok) (xs : List α) : List Tok :=
  Tok.nat xs.length :: (xs.map enc).flatten

/-- An optional value feeds its discriminant to the hasher followed by its
payload when present (mirroring `Hash for Option`). -/
def encOpt (enc : α → List Tok) : Option α → List Tok
  | none => [Tok.tag 0]
  | some a => Tok.tag 1 :: enc a

def encPos (p : DirectPosition) : List Tok :=
  [Tok.int p.x, Tok.int p.y, Tok.int p.z]

def encRing : List DirectPosition → List Tok :=
  encList encPos

def encPolygon (p : GmlPolygon) : List Tok :=
  encRing p.exterior ++ encList encRing p.interior

def encMember (m : GmlSurfaceMember) : List Tok :=
  encStr m.href ++ encOpt encPolygon m.polygon

/-- The full token stream fed to the hasher by `value.hash(&mut hasher)`:
every field of the mapped structure, in declaration order — the identifier
string, then the member sequence, each member contributing its reference
string and its optional polygon payload. -/
def encMultiSurface (v : GmlMultiSurface) : List Tok :=
  encStr v.id ++ encList encMember v.members

/-- A numeric value for each token, used only by the mixing stand-in. -/
def Tok.val : Tok → Nat
  | .term => 0
  | .char c => 5 * c.toNat + 1
  | .nat n => 5 * n + 2
  | .int i => 5 * i.natAbs * 2 + (if i < 0 then 5 else 0) + 3
  | .tag t => 5 * t + 4

/-- Concrete 64-bit mixing function standing in for the unspecified
`DefaultHasher` algorithm (`hasher.finish()`): a fold over the token
stream, truncated to 64 bits at each step.  The claims below depend only
on which data reaches the hasher, never on this mixing function. -/
def hasherFinish (l : List Tok) : Nat :=
  l.foldl (fun h t => (h * 1099511628211 + Tok.val t) % 2 ^ 64)
    (14695981039346656037 % 2 ^ 64)

/-! ### The Geometry Resolver -/

/-- Identity resolution of `TryFrom<GmlMultiSurface> for MultiSurface`:
`value.id.clone().try_into().ok().unwrap_or_else(|| { let mut hasher =
DefaultHasher::new(); value.hash(&mut hasher);
Id::from_hashed_u64(hasher.finish()) })`. -/
def resolveId (v : GmlMultiSurface) : Id :=
  (Id.tryParse v.id).getD (Id.from_hashed_u64 (hasherFinish (encMultiSurface v)))

/-- `.map(|x| x.try_into()).collect::<Result<Vec<_>, _>>()`:
convert each inline polygon in order, stopping at the first failure. -/
def collectPolygons : List GmlPolygon → Except DomainError (List Polygon)
  | [] => .ok []
  | p :: rest =>
    match Polygon.tryFrom p with
    | .error e => .error e
    | .ok q =>
      match collectPolygons rest with
      | .error e => .error e
      | .ok qs => .ok (q :: qs)

/-- `TryFrom<GmlMultiSurface> for MultiSurface`: resolve the identity,
extract the inline polygons of the members in source order
(`flat_map(|x| x.polygon)`), convert them, and invoke the domain
constructor; domain failures are surfaced through the io error type. -/
def tryFromGml (value : GmlMultiSurface) : Except Error MultiSurface :=
  let id : Id := resolveId value
  let gml : Gml := ⟨id⟩
  match collectPolygons (value.members.filterMap (·.polygon)) with
  | .error e => .error (.PolygonConversion e)
  | .ok polygons =>
    match MultiSurface.new gml polygons with
    | .error e => .error (.PolygonConversion e)
    | .ok ms => .ok ms

/-- `parse_multi_surface`: run the external deserializer (given as a
function, since it is an external collaborator of this core) and convert
its output; a deserializer failure is surfaced as a `Deserialization`
error carrying the underlying cause. -/
def parse_multi_surface (deserialize : String → Except String GmlMultiSurface)
    (source_text : String) : Except Error MultiSurface :=
  match deserialize source_text with
  | .error e => .error (.Deserialization e)
  | .ok v => tryFromGml v

/-! ### Cancellation properties of the hash encodings

Each encoder is self-delimiting: an encoded value followed by arbitrary
further stream determines the value and the rest of the stream.  This is
the formal content of "the hash input covers every field": the full
encoding is injective, so two different mapped structures always feed
different streams to the hasher. -/

/-- `enc` is self-delimiting inside a longer token stream. -/
def EncCancel (enc : α → List Tok) : Prop :=
  ∀ a b t₁ t₂, enc a ++ t₁ = enc b ++ t₂ → a = b ∧ t₁ = t₂

theorem chars_cancel : ∀ (cs ds : List Char) (t₁ t₂ : List Tok),
    (cs.map Tok.char ++ [Tok.term]) ++ t₁ = (ds.map Tok.char ++ [Tok.term]) ++ t₂ →
    cs = ds ∧ t₁ = t₂ := by
  intro cs
  induction cs with
  | nil =>
    intro ds t₁ t₂ h
    cases ds with
    | nil => simpa using h
    | cons d ds => simp at h
  | cons c cs ih =>
    intro ds t₁ t₂ h
    cases ds with
    | nil => simp at h
    | cons d ds =>
      simp only [List.map_cons, List.cons_append, List.cons.injEq, Tok.char.injEq] at h
      obtain ⟨rfl, h⟩ := h
      obtain ⟨rfl, rfl⟩ := ih ds t₁ t₂ h
      exact ⟨rfl, rfl⟩

theorem encStr_cancel : EncCancel encStr := by
  intro a b t₁ t₂ h
  obtain ⟨hd, rfl⟩ := chars_cancel a.data b.data t₁ t₂ h
  exact ⟨String.ext hd, rfl⟩

theorem flatten_cancel {enc : α → List Tok} (henc : EncCancel enc) :
    ∀ (xs ys : List α) (t₁ t₂ : List Tok), xs.length = ys.length →
      (xs.map enc).flatten ++ t₁ = (ys.map enc).flatten ++ t₂ →
      xs = ys ∧ t₁ = t₂ := by
  intro xs
  induction xs with
  | nil =>
    intro ys t₁ t₂ hlen h
    cases ys with
    | nil => simpa using h
    | cons y ys => simp at hlen
  | cons x xs ih =>
    intro ys t₁ t₂ hlen h
    cases ys with
    | nil => simp at hlen
    | cons y ys =>
      simp only [List.map_cons, List.flatten_cons, List.append_assoc] at h
      obtain ⟨rfl, h₂⟩ := henc x y _ _ h
      simp only [List.length_cons, Nat.add_right_cancel_iff] at hlen
      obtain ⟨rfl, rfl⟩ := ih ys t₁ t₂ hlen h₂
      exact ⟨rfl, rfl⟩

theorem encList_cancel {enc : α → List Tok} (henc : EncCancel enc) :
    EncCancel (encList enc) := by
  intro a b t₁ t₂ h
  simp only [encList, List.cons_append, List.cons.injEq, Tok.nat.injEq] at h
  obtain ⟨hlen, h⟩ := h
  obtain ⟨rfl, rfl⟩ := flatten_cancel henc a b t₁ t₂ hlen h
  exact ⟨rfl, rfl⟩

theorem encOpt_cancel {enc : α → List Tok} (henc : EncCancel enc) :
    EncCancel (encOpt enc) := by
  intro a b t₁ t₂ h
  cases a with
  | none =>
    cases b with
    | none => simpa [encOpt] using h
    | some y => simp [encOpt] at h
  | some x =>
    cases b with
    | none => simp [encOpt] at h
    | some y =>
      simp only [encOpt, List.cons_append, List.cons.injEq, true_and] at h
      obtain ⟨rfl, rfl⟩ := henc x y t₁ t₂ h
      exact ⟨rfl, rfl⟩

theorem encPos_cancel : EncCancel encPos := by
  intro a b t₁ t₂ h
  obtain ⟨ax, ay, az⟩ := a
  obtain ⟨bx, by', bz⟩ := b
  simp only [encPos, List.cons_append, List.nil_append, List.cons.injEq,
    Tok.int.injEq] at h
  obtain ⟨rfl, rfl, rfl, rfl⟩ := h
  exact ⟨rfl, rfl⟩

theorem encRing_cancel : EncCancel encRing :=
  encList_cancel encPos_cancel

theorem encPolygon_cancel : EncCancel encPolygon := by
  intro a b t₁ t₂ h
  simp only [encPolygon, List.append_assoc] at h
  obtain ⟨hext, h⟩ := encRing_cancel a.exterior b.exterior _ _ h
  obtain ⟨hint, rfl⟩ := encList_cancel encRing_cancel a.interior b.interior _ _ h
  obtain ⟨ae, ai⟩ := a
  obtain ⟨be, bi⟩ := b
  cases hext
  cases hint
  exact ⟨rfl, rfl⟩

theorem encMember_cancel : EncCancel encMember := by
  intro a b t₁ t₂ h
  simp only [encMember, List.append_assoc] at h
  obtain ⟨hh, h⟩ := encStr_cancel a.href b.href _ _ h
  obtain ⟨hp, rfl⟩ := encOpt_cancel encPolygon_cancel a.polygon b.polygon _ _ h
  obtain ⟨ah, ap⟩ := a
  obtain ⟨bh, bp⟩ := b
  cases hh
  cases hp
  exact ⟨rfl, rfl⟩

/-- The hash input stream determines the mapped structure: the derived
hashing covers every field, so distinct structures feed distinct streams
to the hasher. -/
theorem encMultiSurface_injective : ∀ a b : GmlMultiSurface,
    encMultiSurface a = encMultiSurface b → a = b := by
  intro a b h
  have h' : encMultiSurface a ++ [] = encMultiSurface b ++ [] := by
    simpa using h
  simp only [encMultiSurface, List.append_assoc] at h'
  obtain ⟨hid, h'⟩ := encStr_cancel a.id b.id _ _ h'
  obtain ⟨hm, -⟩ := encList_cancel encMember_cancel a.members b.members _ _ h'
  obtain ⟨ai, am⟩ := a
  obtain ⟨bi, bm⟩ := b
  cases hid
  cases hm
  rfl

/-- The mixing stand-in always produces a 64-bit value. -/
theorem hasherFinish_lt (l : List Tok) : hasherFinish l < 2 ^ 64 := by
  have key : ∀ (l : List Tok) (h : Nat), h < 2 ^ 64 →
      l.foldl (fun h t => (h * 1099511628211 + Tok.val t) % 2 ^ 64) h < 2 ^ 64 := by
    intro l
    induction l with
    | nil => intro h hh; simpa using hh
    | cons t l ih =>
      intro h hh
      exact ih _ (Nat.mod_lt _ (by norm_num))
  exact key l _ (Nat.mod_lt _ (by norm_num))

/-! ### Helper lemmas on the resolver -/

theorem collectPolygons_ok_spec : ∀ (xs : List GmlPolygon) (ys : List Polygon),
    collectPolygons xs = .ok ys →
    xs.length = ys.length ∧
      ∀ i (h₁ : i < xs.length) (h₂ : i < ys.length),
        Polygon.tryFrom xs[i] = .ok ys[i] := by
  intro xs
  induction xs with
  | nil =>
    intro ys h
    simp only [collectPolygons] at h
    cases h
    exact ⟨rfl, by intro i h₁ _; simp at h₁⟩
  | cons p rest ih =>
    intro ys h
    simp only [collectPolygons] at h
    cases hp : Polygon.tryFrom p with
    | error e => rw [hp] at h; cases h
    | ok q =>
      rw [hp] at h
      cases hr : collectPolygons rest with
      | error e => rw [hr] at h; cases h
      | ok qs =>
        rw [hr] at h
        cases h
        obtain ⟨hlen, hget⟩ := ih qs hr
        refine ⟨by simp [hlen], ?_⟩
        intro i h₁ h₂
        cases i with
        | zero => simpa using hp
        | succ j =>
          simp only [List.getElem_cons_succ]
          exact hget j (by simpa using h₁) (by simpa using h₂)

theorem collectPolygons_error_of_mem : ∀ (xs : List GmlPolygon) (p : GmlPolygon),
    p ∈ xs → (∃ e, Polygon.tryFrom p = .error e) →
    ∃ e, collectPolygons xs = .error e := by
  intro xs
  induction xs with
  | nil => intro p hp _; cases hp
  | cons q rest ih =>
    intro p hp he
    cases hq : Polygon.tryFrom q with
    | error e => exact ⟨e, by simp [collectPolygons, hq]⟩
    | ok r =>
      rcases List.mem_cons.mp hp with rfl | hmem
      · obtain ⟨e, he⟩ := he
        rw [he] at hq
        cases hq
      · obtain ⟨e, he⟩ := ih p hmem he
        exact ⟨e, by simp [collectPolygons, hq, he]⟩

theorem tryFromGml_ok_gml : ∀ (v : GmlMultiSurface) (ms : MultiSurface),
    tryFromGml v = .ok ms → ms.gml = ⟨resolveId v⟩ := by
  intro v ms h
  simp only [tryFromGml] at h
  cases hc : collectPolygons (v.members.filterMap (·.polygon)) with
  | error e => rw [hc] at h; cases h
  | ok polygons =>
    rw [hc] at h
    simp only [MultiSurface.new] at h
    by_cases hp : polygons.isEmpty
    · rw [if_pos hp] at h; cases h
    · rw [if_neg hp] at h
      cases h
      rfl

theorem tryFromGml_ok_members : ∀ (v : GmlMultiSurface) (ms : MultiSurface),
    tryFromGml v = .ok ms →
    collectPolygons (v.members.filterMap (·.polygon)) = .ok ms.surface_member := by
  intro v ms h
  simp only [tryFromGml] at h
  cases hc : collectPolygons (v.members.filterMap (·.polygon)) with
  | error e => rw [hc] at h; cases h
  | ok polygons =>
    rw [hc] at h
    simp only [MultiSurface.new] at h
    by_cases hp : polygons.isEmpty
    · rw [if_pos hp] at h; cases h
    · rw [if_neg hp] at h
      cases h
      rfl

theorem tryFromGml_error_shape : ∀ (v : GmlMultiSurface) (e : Error),
    tryFromGml v = .error e → ∃ r, e = .PolygonConversion r := by
  intro v e h
  simp only [tryFromGml] at h
  cases hc : collectPolygons (v.members.filterMap (·.polygon)) with
  | error e' =>
    rw [hc] at h
    cases h
    exact ⟨e', rfl⟩
  | ok polygons =>
    rw [hc] at h
    dsimp only at h
    cases hn : MultiSurface.new ⟨resolveId v⟩ polygons with
    | error e' =>
      rw [hn] at h
      cases h
      exact ⟨e', rfl⟩
    | ok ms => rw [hn] at h; cases h

/-- The conversion outcome of `tryFromGml` depends on the members only
through their extracted polygon payloads: two mapped structures whose
members extract the same polygon sequence fail identically, and succeed
with the same output polygon sequence. -/
theorem tryFromGml_polygon_invariance (v w : GmlMultiSurface)
    (h : v.members.filterMap (·.polygon) = w.members.filterMap (·.polygon)) :
    (∀ ms, tryFromGml v = .ok ms →
      ∃ ms', tryFromGml w = .ok ms' ∧ ms'.surface_member = ms.surface_member) ∧
    ∀ e, tryFromGml v = .error e → tryFromGml w = .error e := by
  constructor
  · intro ms hok
    simp only [tryFromGml] at hok
    rw [h] at hok
    cases hc : collectPolygons (w.members.filterMap (·.polygon)) with
    | error e => rw [hc] at hok; cases hok
    | ok polys =>
      rw [hc] at hok
      dsimp only at hok
      simp only [MultiSurface.new] at hok
      by_cases hp : polys.isEmpty
      · rw [if_pos hp] at hok; cases hok
      · rw [if_neg hp] at hok
        cases hok
        refine ⟨⟨⟨resolveId w⟩, polys⟩, ?_, rfl⟩
        simp [tryFromGml, hc, MultiSurface.new, hp]
  · intro e he
    simp only [tryFromGml] at he
    rw [h] at he
    cases hc : collectPolygons (w.members.filterMap (·.polygon)) with
    | error e' =>
      rw [hc] at he
      dsimp only at he
      cases he
      simp [tryFromGml, hc]
    | ok polys =>
      rw [hc] at he
      dsimp only at he
      simp only [MultiSurface.new] at he
      by_cases hp : polys.isEmpty
      · rw [if_pos hp] at he
        cases he
        simp [tryFromGml, hc, MultiSurface.new, hp]
      · rw [if_neg hp] at he; cases he

theorem tryFromGml_empty_delegates : ∀ v : GmlMultiSurface,
    v.members.filterMap (·.polygon) = [] →
    tryFromGml v =
      (MultiSurface.new ⟨resolveId v⟩ []).mapError Error.PolygonConversion := by
  intro v hv
  simp only [tryFromGml, hv, collectPolygons]
  cases hn : MultiSurface.new ⟨resolveId v⟩ [] with
  | error e => simp [hn, Except.mapError]
  | ok ms => simp [hn, Except.mapError]

/-! ### Concrete inputs used by the witnesses -/

/-- A closed square ring of five points (closing point repeated). -/
def ringSquare : List DirectPosition :=
  [⟨0, 0, 0⟩, ⟨1, 0, 0⟩, ⟨1, 1, 0⟩, ⟨0, 1, 0⟩, ⟨0, 0, 0⟩]

def polyOk : GmlPolygon := ⟨ringSquare, []⟩

/-- A degenerate two-point ring, rejected by the domain model. -/
def polyBad : GmlPolygon := ⟨[⟨0, 0, 0⟩, ⟨1, 0, 0⟩], []⟩

/-- A member carrying an inline polygon and no reference. -/
def memInline : GmlSurfaceMember := ⟨"", some polyOk⟩

/-- A by-reference member: a reference string and no inline polygon. -/
def memRef : GmlSurfaceMember := ⟨"#other", none⟩

def vParsed : GmlMultiSurface := ⟨"UUID_a", [⟨"", some polyOk⟩]⟩

def vNoId : GmlMultiSurface := ⟨"", [⟨"", some polyOk⟩]⟩

def vRefOnly : GmlMultiSurface := ⟨"", [⟨"#other", none⟩]⟩

def vNoMembers : GmlMultiSurface := ⟨"", []⟩

def vBad : GmlMultiSurface := ⟨"UUID_b", [⟨"", some polyBad⟩]⟩

def vHrefBoth : GmlMultiSurface := ⟨"UUID_c", [⟨"#x", some polyOk⟩]⟩

def vHrefNone : GmlMultiSurface := ⟨"UUID_c", [⟨"", some polyOk⟩]⟩

/-- The expected output for `vParsed`. -/
def msParsed : MultiSurface := ⟨⟨.parsed "UUID_a"⟩, [⟨ringSquare, []⟩]⟩

/-- The expected output for `vNoId` (fallback identity). -/
def msNoId : MultiSurface :=
  ⟨⟨Id.from_hashed_u64 (hasherFinish (encMultiSurface vNoId))⟩, [⟨ringSquare, []⟩]⟩

/-! ### The claims -/

/-- C1: for every input text that deserializes successfully and whose
identifier attribute parses as a valid Id, the MultiSurface returned by
`parse_multi_surface` carries exactly that parsed Id, regardless of the
content of the surface members (the fallback hashing path is not used). -/
theorem parsed_id_is_preserved (d : String → Except String GmlMultiSurface)
    (t : String) (v : GmlMultiSurface) (i : Id) (ms : MultiSurface)
    (hd : d t = .ok v) (hi : Id.tryParse v.id = some i)
    (hok : parse_multi_surface d t = .ok ms) :
    ms.gml.id = i := by
  simp only [parse_multi_surface, hd] at hok
  rw [tryFromGml_ok_gml v ms hok]
  simp [resolveId, hi]

theorem parsed_id_is_preserved_witness : msParsed.gml.id = Id.parsed "UUID_a" :=
  parsed_id_is_preserved (fun _ => .ok vParsed) "" vParsed (Id.parsed "UUID_a")
    msParsed rfl rfl rfl

/-- C2: for every input whose identifier attribute is absent or does not
parse as a valid Id, calling `parse_multi_surface` twice on the same text
yields the same fallback Id both times; that Id is the deterministic
function of the mapped structure given by hashing it. -/
theorem fallback_id_deterministic (d : String → Except String GmlMultiSurface)
    (t : String) (v : GmlMultiSurface) (ms₁ ms₂ : MultiSurface)
    (hd : d t = .ok v) (hnone : Id.tryParse v.id = none)
    (h₁ : parse_multi_surface d t = .ok ms₁)
    (h₂ : parse_multi_surface d t = .ok ms₂) :
    ms₁.gml.id = ms₂.gml.id ∧
      ms₁.gml.id = Id.from_hashed_u64 (hasherFinish (encMultiSurface v)) := by
  simp only [parse_multi_surface, hd] at h₁ h₂
  have g₁ := tryFromGml_ok_gml v ms₁ h₁
  have g₂ := tryFromGml_ok_gml v ms₂ h₂
  have hres : resolveId v = Id.from_hashed_u64 (hasherFinish (encMultiSurface v)) := by
    simp [resolveId, hnone]
  constructor
  · rw [g₁, g₂]
  · rw [g₁, hres]

theorem fallback_id_deterministic_witness :
    msNoId.gml.id = msNoId.gml.id ∧
      msNoId.gml.id = Id.from_hashed_u64 (hasherFinish (encMultiSurface vNoId)) :=
  fallback_id_deterministic (fun _ => .ok vNoId) "" vNoId msNoId msNoId
    rfl rfl rfl rfl

/-- C3: in every mapped structure, each surface member that carries no
inline polygon is silently dropped: removing it (wherever it sits among
the members) changes neither the extracted polygon sequence, nor the
conversion outcome, nor the result — it contributes nothing to the
output's polygon sequence and causes no PolygonConversion error; in
particular this holds for each member of a reference-only input. -/
theorem no_polygon_member_silently_dropped (i : String)
    (pre post : List GmlSurfaceMember) (m : GmlSurfaceMember)
    (hm : m.polygon = none) :
    (pre ++ m :: post).filterMap (·.polygon) =
        (pre ++ post).filterMap (·.polygon) ∧
      collectPolygons ((pre ++ m :: post).filterMap (·.polygon)) =
        collectPolygons ((pre ++ post).filterMap (·.polygon)) ∧
      (∀ ms, tryFromGml ⟨i, pre ++ m :: post⟩ = .ok ms →
        ∃ ms', tryFromGml ⟨i, pre ++ post⟩ = .ok ms' ∧
          ms'.surface_member = ms.surface_member) ∧
      ∀ e, tryFromGml ⟨i, pre ++ m :: post⟩ = .error e →
        tryFromGml ⟨i, pre ++ post⟩ = .error e := by
  have hfm : (pre ++ m :: post).filterMap (·.polygon) =
      (pre ++ post).filterMap (·.polygon) := by
    simp [List.filterMap_append, List.filterMap_cons, hm]
  have hinv := tryFromGml_polygon_invariance ⟨i, pre ++ m :: post⟩
    ⟨i, pre ++ post⟩ hfm
  exact ⟨hfm, by rw [hfm], hinv.1, hinv.2⟩

theorem no_polygon_member_silently_dropped_witness :
    ([memInline] ++ memRef :: []).filterMap (·.polygon) =
        ([memInline] ++ ([] : List GmlSurfaceMember)).filterMap (·.polygon) ∧
      collectPolygons (([memInline] ++ memRef :: []).filterMap (·.polygon)) =
        collectPolygons
          (([memInline] ++ ([] : List GmlSurfaceMember)).filterMap (·.polygon)) ∧
      (∀ ms, tryFromGml ⟨"UUID_a", [memInline] ++ memRef :: []⟩ = .ok ms →
        ∃ ms', tryFromGml ⟨"UUID_a", [memInline] ++ []⟩ = .ok ms' ∧
          ms'.surface_member = ms.surface_member) ∧
      ∀ e, tryFromGml ⟨"UUID_a", [memInline] ++ memRef :: []⟩ = .error e →
        tryFromGml ⟨"UUID_a", [memInline] ++ []⟩ = .error e :=
  no_polygon_member_silently_dropped "UUID_a" [memInline] [] memRef rfl

/-- C4: if converting any member's inline polygon fails, the conversion
returns a PolygonConversion error wrapping a domain rejection reason, and
no MultiSurface — not even a partial one — is returned. -/
theorem polygon_failure_aborts (v : GmlMultiSurface)
    (h : ∃ m ∈ v.members, ∃ p, m.polygon = some p ∧
      ∃ e, Polygon.tryFrom p = .error e) :
    (∃ r, tryFromGml v = .error (.PolygonConversion r)) ∧
      ∀ ms, tryFromGml v ≠ .ok ms := by
  obtain ⟨m, hm, p, hp, he⟩ := h
  have hmem : p ∈ v.members.filterMap (·.polygon) :=
    List.mem_filterMap.mpr ⟨m, hm, hp⟩
  obtain ⟨e, hcol⟩ :=
    collectPolygons_error_of_mem (v.members.filterMap (·.polygon)) p hmem he
  have hres : tryFromGml v = .error (.PolygonConversion e) := by
    simp [tryFromGml, hcol]
  exact ⟨⟨e, hres⟩, fun ms hok => by rw [hres] at hok; cases hok⟩

theorem polygon_failure_aborts_witness :
    (∃ r, tryFromGml vBad = .error (.PolygonConversion r)) ∧
      ∀ ms, tryFromGml vBad ≠ .ok ms :=
  polygon_failure_aborts vBad
    ⟨⟨"", some polyBad⟩, by decide, polyBad, rfl, .insufficientPoints, rfl⟩

/-- C5: for every input text that the external deserializer rejects,
`parse_multi_surface` returns a Deserialization error carrying the
underlying cause; no identity resolution or polygon conversion is
performed and no partial result is returned. -/
theorem deserializer_failure_propagates
    (d : String → Except String GmlMultiSurface) (t : String) (e : String)
    (hd : d t = .error e) :
    parse_multi_surface d t = .error (.Deserialization e) := by
  simp [parse_multi_surface, hd]

theorem deserializer_failure_propagates_witness :
    parse_multi_surface (fun _ => .error "unterminated tag") "<gml:Multi" =
      .error (.Deserialization "unterminated tag") :=
  deserializer_failure_propagates (fun _ => .error "unterminated tag")
    "<gml:Multi" "unterminated tag" rfl

/-- C6: on success, the polygon sequence of the returned MultiSurface is
exactly the in-order sequence of converted inline polygons: it has one
entry per member carrying an inline polygon, and the i-th entry is the
conversion of the i-th such payload — no gaps and no placeholders. -/
theorem output_polygons_in_source_order
    (d : String → Except String GmlMultiSurface) (t : String)
    (v : GmlMultiSurface) (ms : MultiSurface)
    (hd : d t = .ok v) (hok : parse_multi_surface d t = .ok ms) :
    (v.members.filterMap (·.polygon)).length = ms.surface_member.length ∧
      ∀ i (h₁ : i < (v.members.filterMap (·.polygon)).length)
        (h₂ : i < ms.surface_member.length),
        Polygon.tryFrom (v.members.filterMap (·.polygon))[i] =
          .ok ms.surface_member[i] := by
  simp only [parse_multi_surface, hd] at hok
  exact collectPolygons_ok_spec _ _ (tryFromGml_ok_members v ms hok)

theorem output_polygons_in_source_order_witness :
    (vParsed.members.filterMap (·.polygon)).length = msParsed.surface_member.length ∧
      ∀ i (h₁ : i < (vParsed.members.filterMap (·.polygon)).length)
        (h₂ : i < msParsed.surface_member.length),
        Polygon.tryFrom (vParsed.members.filterMap (·.polygon))[i] =
          .ok msParsed.surface_member[i] :=
  output_polygons_in_source_order (fun _ => .ok vParsed) "" vParsed msParsed rfl rfl

/-- C7: for every input with zero convertible members — all by-reference,
or no surface-member children at all — the core reaches the domain
MultiSurface constructor with an empty polygon sequence, and the outcome
is exactly the domain constructor's verdict on that empty sequence. -/
theorem empty_sequence_delegated (v : GmlMultiSurface)
    (h : v.members.filterMap (·.polygon) = []) :
    tryFromGml v =
      (MultiSurface.new ⟨resolveId v⟩ []).mapError Error.PolygonConversion :=
  tryFromGml_empty_delegates v h

theorem empty_sequence_delegated_witness :
    tryFromGml vNoMembers =
      (MultiSurface.new ⟨resolveId vNoMembers⟩ []).mapError Error.PolygonConversion :=
  empty_sequence_delegated vNoMembers rfl

/-- C8: the fallback Id hashes every field of the mapped structure — the
identifier string, every member's reference string, every member's
polygon payload — so any two distinct mapped structures receive different
fallback Ids unless the 64-bit hash outputs of their (necessarily
distinct) hash input streams genuinely collide. -/
theorem fallback_id_hashes_every_field (a b : GmlMultiSurface) (hne : a ≠ b) :
    (Id.tryParse a.id = none →
      resolveId a = Id.from_hashed_u64 (hasherFinish (encMultiSurface a))) ∧
    (Id.from_hashed_u64 (hasherFinish (encMultiSurface a)) ≠
        Id.from_hashed_u64 (hasherFinish (encMultiSurface b)) ∨
      (encMultiSurface a ≠ encMultiSurface b ∧
        hasherFinish (encMultiSurface a) = hasherFinish (encMultiSurface b))) := by
  constructor
  · intro hnone
    simp [resolveId, hnone]
  · have henc : encMultiSurface a ≠ encMultiSurface b :=
      fun h => hne (encMultiSurface_injective a b h)
    by_cases hfin : hasherFinish (encMultiSurface a) = hasherFinish (encMultiSurface b)
    · exact Or.inr ⟨henc, hfin⟩
    · refine Or.inl fun hid => hfin ?_
      simp only [Id.from_hashed_u64, Id.hashed.injEq] at hid
      rwa [Nat.mod_eq_of_lt (hasherFinish_lt _),
        Nat.mod_eq_of_lt (hasherFinish_lt _)] at hid

theorem fallback_id_hashes_every_field_witness :
    (Id.tryParse vNoId.id = none →
      resolveId vNoId = Id.from_hashed_u64 (hasherFinish (encMultiSurface vNoId))) ∧
    (Id.from_hashed_u64 (hasherFinish (encMultiSurface vNoId)) ≠
        Id.from_hashed_u64 (hasherFinish (encMultiSurface vRefOnly)) ∨
      (encMultiSurface vNoId ≠ encMultiSurface vRefOnly ∧
        hasherFinish (encMultiSurface vNoId) = hasherFinish (encMultiSurface vRefOnly))) :=
  fallback_id_hashes_every_field vNoId vRefOnly (by decide)

/-- C9: identity resolution never fails — after a successful
deserialization every error of `parse_multi_surface` is a
PolygonConversion-class error, so no error path originates from identity
resolution. -/
theorem identity_resolution_total (d : String → Except String GmlMultiSurface)
    (t : String) (v : GmlMultiSurface) (e : Error)
    (hd : d t = .ok v) (he : parse_multi_surface d t = .error e) :
    ∃ r, e = .PolygonConversion r := by
  simp only [parse_multi_surface, hd] at he
  exact tryFromGml_error_shape v e he

theorem identity_resolution_total_witness :
    ∃ r, Error.PolygonConversion DomainError.insufficientPoints =
      .PolygonConversion r :=
  identity_resolution_total (fun _ => .ok vBad) "" vBad
    (.PolygonConversion .insufficientPoints) rfl rfl

/-- C10: a surface member carrying both a non-empty reference string and
an inline polygon is treated as an inline member — its payload appears in
the extracted polygon sequence — and the reference strings never influence
which polygons are extracted nor the outcome of their conversion: two
member lists with the same polygon fields extract and convert
identically. -/
theorem href_does_not_influence_polygons (v w : GmlMultiSurface)
    (h : v.members.map (·.polygon) = w.members.map (·.polygon)) :
    (∀ m ∈ v.members, ∀ p, m.polygon = some p →
        p ∈ v.members.filterMap (·.polygon)) ∧
      v.members.filterMap (·.polygon) = w.members.filterMap (·.polygon) ∧
      collectPolygons (v.members.filterMap (·.polygon)) =
        collectPolygons (w.members.filterMap (·.polygon)) := by
  have hfm : v.members.filterMap (·.polygon) = w.members.filterMap (·.polygon) := by
    have hv := List.filterMap_map (fun m : GmlSurfaceMember => m.polygon)
      (fun o : Option GmlPolygon => o) v.members
    have hw := List.filterMap_map (fun m : GmlSurfaceMember => m.polygon)
      (fun o : Option GmlPolygon => o) w.members
    calc v.members.filterMap (·.polygon)
        = (v.members.map (·.polygon)).filterMap (fun o => o) := by
          rw [hv]; rfl
      _ = (w.members.map (·.polygon)).filterMap (fun o => o) := by rw [h]
      _ = w.members.filterMap (·.polygon) := by rw [hw]; rfl
  refine ⟨?_, hfm, by rw [hfm]⟩
  intro m hm p hp
  exact List.mem_filterMap.mpr ⟨m, hm, hp⟩

theorem href_does_not_influence_polygons_witness :
    (∀ m ∈ vHrefBoth.members, ∀ p, m.polygon = some p →
        p ∈ vHrefBoth.members.filterMap (·.polygon)) ∧
      vHrefBoth.members.filterMap (·.polygon) =
        vHrefNone.members.filterMap (·.polygon) ∧
      collectPolygons (vHrefBoth.members.filterMap (·.polygon)) =
        collectPolygons (vHrefNone.members.filterMap (·.polygon)) :=
  href_does_not_influence_polygons vHrefBoth vHrefNone rfl

end Egml
